import Mathlib

/-!
Shallow embedding of the Micro32 boot-time memory region negotiator
(`src/memory_manager.h`, `src/memory_manager.cpp`).

The C++ code runs on a 32-bit bare-metal target: `uintptr_t` and
`std::size_t` are 32-bit unsigned integers, so every address computation is
carried out modulo `2^32`.  We model machine words as natural numbers and
apply `% W` (with `W = 2^32`) exactly where the C++ arithmetic can wrap.

Memory is modelled word-granularly as a map from byte addresses to the
32-bit word stored there; the zeroing loop in the source only ever writes
4-byte words at the addresses it traverses.

The process-wide mutable statics (`s_ram_base`, `s_ram_size`,
`s_reserved_region`, `s_reserved`, `s_explicit_bounds_set`) become an
explicit `NegotiatorState` record threaded through the operations, and the
weak linker symbol `__ram_end` becomes an `Option Nat` input (absent symbol
= `none`).
-/

set_option maxRecDepth 8000

namespace MemoryManager

/-- Machine modulus: `uintptr_t` / `size_t` arithmetic wraps modulo `2^32`. -/
def W : Nat := 2 ^ 32

/-- `DEFAULT_RAM_BASE = 0x3F800000u` from `memory_manager.h`. -/
def DEFAULT_RAM_BASE : Nat := 0x3F800000

/-- `DEFAULT_RAM_SIZE = 32u * 1024u * 1024u` (32 MiB) from `memory_manager.h`. -/
def DEFAULT_RAM_SIZE : Nat := 32 * 1024 * 1024

/-- ` RESERVED_PREFIX = 8u * 1024u` (8 KiB) from `memory_manager.h`. -/
def RESERVED_PREFIX : Nat := 8 * 1024

/-- `struct Region { uintptr_t start; uintptr_t end; }` — half-open interval. -/
structure Region where
  start : Nat
  stop : Nat
deriving DecidableEq, Repr

/-- The five file-level statics of `memory_manager.cpp` gathered into one
record of negotiator state. -/
structure NegotiatorState where
  s_ram_base : Nat
  s_ram_size : Nat
  s_reserved_region : Region
  s_reserved : Bool
  s_explicit_bounds_set : Bool
deriving DecidableEq, Repr

/-- Load-time initialization of the statics:
`s_ram_base = DEFAULT_RAM_BASE`, `s_ram_size = DEFAULT_RAM_SIZE`,
`s_reserved_region = {0, 0}`, `s_reserved = false`,
`s_explicit_bounds_set = false`. -/
def initState : NegotiatorState :=
  { s_ram_base := DEFAULT_RAM_BASE
    s_ram_size := DEFAULT_RAM_SIZE
    s_reserved_region := ⟨0, 0⟩
    s_reserved := false
    s_explicit_bounds_set := false }

/-- Word-granular memory: the 32-bit word stored at a byte address. -/
abbrev Mem := Nat → Nat

/-- `compute_ram_end_from_linker` (memory_manager.cpp lines 46–57).
The weak symbol `__ram_end` is modelled as an `Option Nat`: `none` when the
linker did not provide it (the `&__ram_end == nullptr` branch).  A present
symbol is an address, i.e. a `uintptr_t` value, hence reduced `% W`.
A present symbol whose address is zero is also treated as unavailable. -/
def compute_ram_end_from_linker (ram_end : Option Nat) : Nat :=
  match ram_end with
  | none => 0
  | some a =>
    let addr := a % W
    if addr = 0 then 0 else addr

/-- `set_ram_bounds` (lines 59–64): records explicit bounds and sets the
explicit flag.  The parameters are `uintptr_t` / `size_t`, hence `% W`. -/
def set_ram_bounds (ram_base ram_size : Nat) (st : NegotiatorState) :
    NegotiatorState :=
  { st with
    s_ram_base := ram_base % W
    s_ram_size := ram_size % W
    s_explicit_bounds_set := true }

/-- Lines 70–85 of `reserve_all_except_first_8kb`: the effective
`(ram_base, ram_size)` pair used by the reservation.  When explicit bounds
were not set, the linker marker is consulted; if it is non-zero and
strictly greater than the base, the size is derived from it, otherwise the
stored (compile-time default) bounds are kept. -/
def effective_bounds (ram_end : Option Nat) (st : NegotiatorState) :
    Nat × Nat :=
  if st.s_explicit_bounds_set then
    (st.s_ram_base, st.s_ram_size)
  else
    let linker_ram_end := compute_ram_end_from_linker ram_end
    if linker_ram_end ≠ 0 ∧ st.s_ram_base < linker_ram_end then
      (st.s_ram_base, linker_ram_end - st.s_ram_base)
    else
      (st.s_ram_base, st.s_ram_size)

/-- Lines 99–101: `if (usable_start % ALIGN) usable_start =
(usable_start + (ALIGN-1)) & ~(ALIGN-1);` with `ALIGN = 4`.  The addition
is `uintptr_t`, so it wraps `% W`; masking with `~3` clears the two low
bits, i.e. `x & ~3 = x / 4 * 4` for `x < W`. -/
def align_up4 (x : Nat) : Nat :=
  if x % 4 ≠ 0 then (x + 3) % W / 4 * 4 else x

/-- Lines 103–105: `if (usable_end % ALIGN) usable_end &= ~(ALIGN-1);`. -/
def align_down4 (x : Nat) : Nat :=
  if x % 4 ≠ 0 then x / 4 * 4 else x

/-- Lines 117–123: the zeroing loop.  `p` walks from `usable_start` to
`usable_end` in 4-byte steps, storing a zero word at each address.
(The pointer increment cannot wrap in any call the reservation makes:
both bounds are 4-aligned machine values with `p < p_end < W`.) -/
def zero_words (mem : Mem) (p p_end : Nat) : Mem :=
  if h : p < p_end then
    zero_words (fun a => if a = p then 0 else mem a) (p + 4) p_end
  else
    mem
termination_by p_end - p
decreasing_by omega

/-- `reserve_all_except_first_8kb` (lines 66–127).  Returns the C++ `bool`
result together with the updated negotiator state and memory. -/
def reserve_all_except_first_8kb (ram_end : Option Nat) (zero_memory : Bool)
    (st : NegotiatorState) (mem : Mem) : Bool × NegotiatorState × Mem :=
  if st.s_reserved then
    (true, st, mem)
  else
    let bounds := effective_bounds ram_end st
    let ram_base := bounds.1
    let ram_size := bounds.2
    if ram_size ≤ RESERVED_PREFIX then
      (false, st, mem)
    else
      let usable_start := align_up4 ((ram_base + RESERVED_PREFIX) % W)
      let usable_end := align_down4 ((ram_base + ram_size) % W)
      if usable_start ≥ usable_end then
        (false, st, mem)
      else
        let st1 := { st with
          s_reserved_region := ⟨usable_start, usable_end⟩
          s_reserved := true }
        let mem1 := if zero_memory then zero_words mem usable_start usable_end
          else mem
        (true, st1, mem1)

/-- `get_reserved_region` (lines 129–131): a pure read of the committed
region. -/
def get_reserved_region (st : NegotiatorState) : Region :=
  st.s_reserved_region

/-- The candidate region start a fresh reservation would compute
(`usable_start` after alignment), as a function of the marker and state. -/
def candidate_start (m : Option Nat) (st : NegotiatorState) : Nat :=
  align_up4 (((effective_bounds m st).1 + RESERVED_PREFIX) % W)

/-- The candidate region end a fresh reservation would compute
(`usable_end` after alignment), as a function of the marker and state. -/
def candidate_stop (m : Option Nat) (st : NegotiatorState) : Nat :=
  align_down4 (((effective_bounds m st).1 + (effective_bounds m st).2) % W)

/-- States reachable from load-time initialization by any sequence of API
calls (`set_ram_bounds` and `reserve_all_except_first_8kb`;
`get_reserved_region` does not mutate state). -/
inductive Reachable : NegotiatorState → Prop where
  | init : Reachable initState
  | set (b s : Nat) (st : NegotiatorState) :
      Reachable st → Reachable (set_ram_bounds b s st)
  | reserve (m : Option Nat) (z : Bool) (st : NegotiatorState) (mem : Mem) :
      Reachable st →
      Reachable (reserve_all_except_first_8kb m z st mem).2.1

/-! ### Basic lemmas about the embedded operations -/

lemma W_eq : W = 4294967296 := by norm_num [W]

lemma effective_bounds_explicit (m : Option Nat) (st : NegotiatorState)
    (h : st.s_explicit_bounds_set = true) :
    effective_bounds m st = (st.s_ram_base, st.s_ram_size) := by
  simp [effective_bounds, h]

lemma align_up4_mod4 (x : Nat) : align_up4 x % 4 = 0 := by
  unfold align_up4
  split
  · exact Nat.mul_mod_left _ 4
  · omega

lemma align_down4_mod4 (x : Nat) : align_down4 x % 4 = 0 := by
  unfold align_down4
  split
  · exact Nat.mul_mod_left _ 4
  · omega

lemma align_down4_le (x : Nat) : align_down4 x ≤ x := by
  unfold align_down4
  split
  · exact Nat.div_mul_le_self x 4
  · exact Nat.le_refl x

lemma align_up4_ge (x : Nat) (hx : x + 3 < W) : x ≤ align_up4 x := by
  unfold align_up4
  rw [W_eq] at hx ⊢
  split
  · rw [Nat.mod_eq_of_lt hx]
    omega
  · omega

lemma reserve_of_reserved (m : Option Nat) (z : Bool) (st : NegotiatorState)
    (mem : Mem) (h : st.s_reserved = true) :
    reserve_all_except_first_8kb m z st mem = (true, st, mem) := by
  simp [reserve_all_except_first_8kb, h]

lemma reserve_fresh_eq (m : Option Nat) (z : Bool) (st : NegotiatorState)
    (mem : Mem) (h : st.s_reserved = false) :
    reserve_all_except_first_8kb m z st mem =
      if (effective_bounds m st).2 ≤ RESERVED_PREFIX then (false, st, mem)
      else if candidate_stop m st ≤ candidate_start m st then (false, st, mem)
      else (true,
        { st with
          s_reserved_region := ⟨candidate_start m st, candidate_stop m st⟩
          s_reserved := true },
        if z then zero_words mem (candidate_start m st) (candidate_stop m st)
        else mem) := by
  simp only [reserve_all_except_first_8kb, h, Bool.false_eq_true, if_false,
    candidate_start, candidate_stop, ge_iff_le]

lemma reserve_state_cases (m : Option Nat) (z : Bool) (st : NegotiatorState)
    (mem : Mem) :
    (reserve_all_except_first_8kb m z st mem).2.1 = st ∨
    ((reserve_all_except_first_8kb m z st mem).2.1 =
        { st with
          s_reserved_region := ⟨candidate_start m st, candidate_stop m st⟩
          s_reserved := true }
      ∧ candidate_start m st < candidate_stop m st) := by
  by_cases h : st.s_reserved
  · left
    rw [reserve_of_reserved m z st mem h]
  · rw [reserve_fresh_eq m z st mem (by simpa using h)]
    split
    · left; rfl
    · split
      · left; rfl
      · right; exact ⟨rfl, by omega⟩

lemma reserve_fail_eq (m : Option Nat) (z : Bool) (st : NegotiatorState)
    (mem : Mem) (h : (reserve_all_except_first_8kb m z st mem).1 = false) :
    reserve_all_except_first_8kb m z st mem = (false, st, mem) := by
  by_cases hr : st.s_reserved
  · rw [reserve_of_reserved m z st mem hr] at h
    simp at h
  · rw [reserve_fresh_eq m z st mem (by simpa using hr)] at h ⊢
    by_cases h1 : (effective_bounds m st).2 ≤ RESERVED_PREFIX
    · simp [h1]
    · by_cases h2 : candidate_stop m st ≤ candidate_start m st
      · simp [h1, h2]
      · simp [h1, h2] at h

lemma reserve_true_reserved (m : Option Nat) (z : Bool) (st : NegotiatorState)
    (mem : Mem) (h : (reserve_all_except_first_8kb m z st mem).1 = true) :
    (reserve_all_except_first_8kb m z st mem).2.1.s_reserved = true := by
  by_cases hr : st.s_reserved
  · rw [reserve_of_reserved m z st mem hr]
    exact hr
  · rw [reserve_fresh_eq m z st mem (by simpa using hr)] at h ⊢
    by_cases h1 : (effective_bounds m st).2 ≤ RESERVED_PREFIX
    · simp [h1] at h
    · by_cases h2 : candidate_stop m st ≤ candidate_start m st
      · simp [h1, h2] at h
      · simp [h1, h2]

/-! ### Reachability invariants -/

lemma region_zero_of_not_reserved (st : NegotiatorState) (h : Reachable st) :
    st.s_reserved = false → st.s_reserved_region = ⟨0, 0⟩ := by
  induction h with
  | init => intro; rfl
  | set b s st hst ih =>
    intro h0
    simp only [set_ram_bounds] at h0 ⊢
    exact ih h0
  | reserve m z st mem hst ih =>
    rcases reserve_state_cases m z st mem with hc | ⟨hc, _⟩
    · rw [hc]; exact ih
    · rw [hc]; intro h0; simp at h0

lemma region_ok_of_reserved (st : NegotiatorState) (h : Reachable st) :
    st.s_reserved = true →
      st.s_reserved_region.start % 4 = 0 ∧ st.s_reserved_region.stop % 4 = 0 ∧
      st.s_reserved_region.start < st.s_reserved_region.stop := by
  induction h with
  | init => intro h0; simp [initState] at h0
  | set b s st hst ih =>
    intro h0
    simp only [set_ram_bounds] at h0 ⊢
    exact ih h0
  | reserve m z st mem hst ih =>
    rcases reserve_state_cases m z st mem with hc | ⟨hc, hlt⟩
    · rw [hc]; exact ih
    · rw [hc]
      intro _
      simp only [candidate_start, candidate_stop]
      exact ⟨align_up4_mod4 _, align_down4_mod4 _, by
        have := hlt
        unfold candidate_start candidate_stop at this
        exact this⟩

lemma bounds_default_of_not_explicit (st : NegotiatorState) (h : Reachable st) :
    st.s_explicit_bounds_set = false →
      st.s_ram_base = DEFAULT_RAM_BASE ∧ st.s_ram_size = DEFAULT_RAM_SIZE := by
  induction h with
  | init => intro; exact ⟨rfl, rfl⟩
  | set b s st hst ih =>
    intro h0
    simp [set_ram_bounds] at h0
  | reserve m z st mem hst ih =>
    rcases reserve_state_cases m z st mem with hc | ⟨hc, _⟩
    · rw [hc]; exact ih
    · rw [hc]; exact ih

/-! ### The zeroing loop, characterized pointwise -/

lemma zero_words_apply_aux (a : Nat) :
    ∀ (n : Nat) (mem : Mem) (p p_end : Nat), p_end - p ≤ n →
      zero_words mem p p_end a =
        if p ≤ a ∧ a < p_end ∧ (a - p) % 4 = 0 then 0 else mem a := by
  intro n
  induction n with
  | zero =>
    intro mem p pe hle
    have hnp : ¬ p < pe := by omega
    unfold zero_words
    rw [dif_neg hnp, if_neg (by omega)]
  | succ k ih =>
    intro mem p pe hle
    unfold zero_words
    by_cases hp : p < pe
    · rw [dif_pos hp, ih _ (p + 4) pe (by omega)]
      by_cases ha : a = p
      · subst ha
        rw [if_neg (by omega)]
        simp [hp]
      · by_cases hC : p ≤ a ∧ a < pe ∧ (a - p) % 4 = 0
        · rw [if_pos (by omega : p + 4 ≤ a ∧ a < pe ∧ (a - (p + 4)) % 4 = 0),
            if_pos hC]
        · rw [if_neg (by omega : ¬(p + 4 ≤ a ∧ a < pe ∧ (a - (p + 4)) % 4 = 0)),
            if_neg hC]
          simp [ha]
    · rw [dif_neg hp, if_neg (by omega)]

lemma zero_words_apply (mem : Mem) (p p_end a : Nat) :
    zero_words mem p p_end a =
      if p ≤ a ∧ a < p_end ∧ (a - p) % 4 = 0 then 0 else mem a :=
  zero_words_apply_aux a (p_end - p) mem p p_end (Nat.le_refl _)

/-! ### Further helper lemmas -/

lemma RESERVED_PREFIX_eq : RESERVED_PREFIX = 8192 := rfl

lemma DEFAULT_RAM_BASE_eq : DEFAULT_RAM_BASE = 1065353216 := rfl

lemma DEFAULT_RAM_SIZE_eq : DEFAULT_RAM_SIZE = 33554432 := rfl

lemma align_up4_of_aligned (x : Nat) (h : x % 4 = 0) : align_up4 x = x := by
  unfold align_up4
  simp [h]

lemma align_down4_of_aligned (x : Nat) (h : x % 4 = 0) : align_down4 x = x := by
  unfold align_down4
  simp [h]

lemma effective_bounds_not_explicit (m : Option Nat) (st : NegotiatorState)
    (h : st.s_explicit_bounds_set = false) :
    effective_bounds m st =
      if compute_ram_end_from_linker m ≠ 0 ∧
          st.s_ram_base < compute_ram_end_from_linker m then
        (st.s_ram_base, compute_ram_end_from_linker m - st.s_ram_base)
      else
        (st.s_ram_base, st.s_ram_size) := by
  simp only [effective_bounds, h, Bool.false_eq_true, if_false]

lemma reserve_marker_irrelevant_of_explicit (m m' : Option Nat) (z : Bool)
    (st : NegotiatorState) (mem : Mem) (h : st.s_explicit_bounds_set = true) :
    reserve_all_except_first_8kb m z st mem =
      reserve_all_except_first_8kb m' z st mem := by
  by_cases hr : st.s_reserved
  · rw [reserve_of_reserved m z st mem hr, reserve_of_reserved m' z st mem hr]
  · have hf : st.s_reserved = false := by simpa using hr
    have hcs : candidate_start m st = candidate_start m' st := by
      unfold candidate_start
      rw [effective_bounds_explicit m st h, effective_bounds_explicit m' st h]
    have hce : candidate_stop m st = candidate_stop m' st := by
      unfold candidate_stop
      rw [effective_bounds_explicit m st h, effective_bounds_explicit m' st h]
    rw [reserve_fresh_eq m z st mem hf, reserve_fresh_eq m' z st mem hf,
      effective_bounds_explicit m st h, effective_bounds_explicit m' st h,
      hcs, hce]

lemma reserve_fresh_success (m : Option Nat) (z : Bool) (st : NegotiatorState)
    (mem : Mem) (hres : st.s_reserved = false)
    (h : (reserve_all_except_first_8kb m z st mem).1 = true) :
    RESERVED_PREFIX < (effective_bounds m st).2
  ∧ candidate_start m st < candidate_stop m st
  ∧ (reserve_all_except_first_8kb m z st mem).2.1.s_reserved_region
      = ⟨candidate_start m st, candidate_stop m st⟩
  ∧ (reserve_all_except_first_8kb m z st mem).2.2
      = (if z then zero_words mem (candidate_start m st) (candidate_stop m st)
         else mem) := by
  rw [reserve_fresh_eq m z st mem hres] at h ⊢
  by_cases h1 : (effective_bounds m st).2 ≤ RESERVED_PREFIX
  · rw [if_pos h1] at h
    simp at h
  · rw [if_neg h1] at h ⊢
    by_cases h2 : candidate_stop m st ≤ candidate_start m st
    · rw [if_pos h2] at h
      simp at h
    · rw [if_neg h2] at h ⊢
      exact ⟨by omega, by omega, rfl, rfl⟩

/-! ### The claims -/

/-- Claim C2: `reserve_all_except_first_8kb` is idempotent.  In every state in
which a reservation has already committed (`s_reserved = true`), a further call
returns `true`, leaves the whole negotiator state (in particular the committed
region) unchanged, and writes no memory, regardless of its `zero_memory`
argument. -/
theorem reserve_idempotent (m : Option Nat) (z : Bool) (st : NegotiatorState)
    (mem : Mem) (h : st.s_reserved = true) :
    reserve_all_except_first_8kb m z st mem = (true, st, mem) :=
  reserve_of_reserved m z st mem h

/-- Witness for `reserve_idempotent` at a concrete committed state, with
`zero_memory = true`. -/
theorem reserve_idempotent_witness :
    reserve_all_except_first_8kb (some 0x40000000) true
        { initState with s_reserved := true, s_reserved_region := ⟨4096, 8192⟩ }
        (fun _ => 7)
      = (true,
         { initState with s_reserved := true, s_reserved_region := ⟨4096, 8192⟩ },
         fun _ => 7) :=
  reserve_idempotent (some 0x40000000) true
    { initState with s_reserved := true, s_reserved_region := ⟨4096, 8192⟩ }
    (fun _ => 7) rfl

/-- Claim C4: alignment postcondition.  Whenever
`reserve_all_except_first_8kb` returns `true` on a reachable state, the
committed region of the resulting state has a 4-byte aligned start, a 4-byte
aligned end, and a strictly positive extent. -/
theorem reserve_alignment (m : Option Nat) (z : Bool) (st : NegotiatorState)
    (mem : Mem) (h0 : Reachable st)
    (h : (reserve_all_except_first_8kb m z st mem).1 = true) :
    (reserve_all_except_first_8kb m z st mem).2.1.s_reserved_region.start % 4 = 0
  ∧ (reserve_all_except_first_8kb m z st mem).2.1.s_reserved_region.stop % 4 = 0
  ∧ (reserve_all_except_first_8kb m z st mem).2.1.s_reserved_region.start <
      (reserve_all_except_first_8kb m z st mem).2.1.s_reserved_region.stop :=
  region_ok_of_reserved _ (Reachable.reserve m z st mem h0)
    (reserve_true_reserved m z st mem h)

/-- Witness for `reserve_alignment`: the default-configuration reservation. -/
theorem reserve_alignment_witness :
    (reserve_all_except_first_8kb none false initState (fun _ => 0)).2.1.s_reserved_region.start % 4 = 0
  ∧ (reserve_all_except_first_8kb none false initState (fun _ => 0)).2.1.s_reserved_region.stop % 4 = 0
  ∧ (reserve_all_except_first_8kb none false initState (fun _ => 0)).2.1.s_reserved_region.start <
      (reserve_all_except_first_8kb none false initState (fun _ => 0)).2.1.s_reserved_region.stop :=
  reserve_alignment none false initState (fun _ => 0) Reachable.init (by decide)

/-- Claim C8: `get_reserved_region` is a pure read of the committed region; on
every reachable state in which no reservation has committed it returns the zero
interval, and once a reservation has committed, a later `set_ram_bounds` changes
neither the value it returns nor the committed region (a subsequent reserve call
is a no-op returning the same region). -/
theorem get_reserved_region_spec (st : NegotiatorState) (b s : Nat)
    (m : Option Nat) (z : Bool) (mem : Mem) (h0 : Reachable st) :
    get_reserved_region st = st.s_reserved_region
  ∧ (st.s_reserved = false → get_reserved_region st = ⟨0, 0⟩)
  ∧ get_reserved_region (set_ram_bounds b s st) = get_reserved_region st
  ∧ (st.s_reserved = true →
      reserve_all_except_first_8kb m z (set_ram_bounds b s st) mem
        = (true, set_ram_bounds b s st, mem)
      ∧ get_reserved_region
          (reserve_all_except_first_8kb m z (set_ram_bounds b s st) mem).2.1
        = get_reserved_region st) := by
  refine ⟨rfl, region_zero_of_not_reserved st h0, rfl, ?_⟩
  intro hr
  have hr2 : (set_ram_bounds b s st).s_reserved = true := hr
  refine ⟨reserve_of_reserved m z _ mem hr2, ?_⟩
  rw [reserve_of_reserved m z _ mem hr2]
  rfl

/-- Witness for `get_reserved_region_spec` at the state produced by a
successful default reservation. -/
theorem get_reserved_region_spec_witness :
    get_reserved_region (reserve_all_except_first_8kb none false initState (fun _ => 0)).2.1
      = (reserve_all_except_first_8kb none false initState (fun _ => 0)).2.1.s_reserved_region
  ∧ ((reserve_all_except_first_8kb none false initState (fun _ => 0)).2.1.s_reserved = false →
      get_reserved_region (reserve_all_except_first_8kb none false initState (fun _ => 0)).2.1 = ⟨0, 0⟩)
  ∧ get_reserved_region
      (set_ram_bounds 0x1000 0x5000 (reserve_all_except_first_8kb none false initState (fun _ => 0)).2.1)
      = get_reserved_region (reserve_all_except_first_8kb none false initState (fun _ => 0)).2.1
  ∧ ((reserve_all_except_first_8kb none false initState (fun _ => 0)).2.1.s_reserved = true →
      reserve_all_except_first_8kb (some 0x48000000) true
          (set_ram_bounds 0x1000 0x5000
            (reserve_all_except_first_8kb none false initState (fun _ => 0)).2.1) (fun _ => 3)
        = (true,
           set_ram_bounds 0x1000 0x5000
             (reserve_all_except_first_8kb none false initState (fun _ => 0)).2.1,
           fun _ => 3)
      ∧ get_reserved_region
          (reserve_all_except_first_8kb (some 0x48000000) true
            (set_ram_bounds 0x1000 0x5000
              (reserve_all_except_first_8kb none false initState (fun _ => 0)).2.1) (fun _ => 3)).2.1
        = get_reserved_region (reserve_all_except_first_8kb none false initState (fun _ => 0)).2.1) :=
  get_reserved_region_spec (reserve_all_except_first_8kb none false initState (fun _ => 0)).2.1
    0x1000 0x5000 (some 0x48000000) true (fun _ => 3)
    (Reachable.reserve none false initState (fun _ => 0) Reachable.init)

/-- Claim C10: `reserve_all_except_first_8kb` never modifies the stored RAM
bounds or the explicit-bounds flag — `s_ram_base` and `s_ram_size` are written
only by `set_ram_bounds` — so a marker-derived size is only ever used locally
inside the call and every retry re-derives the effective bounds from the same
stored state. -/
theorem reserve_preserves_bounds (m : Option Nat) (z : Bool)
    (st : NegotiatorState) (mem : Mem) (b s : Nat) :
    (reserve_all_except_first_8kb m z st mem).2.1.s_ram_base = st.s_ram_base
  ∧ (reserve_all_except_first_8kb m z st mem).2.1.s_ram_size = st.s_ram_size
  ∧ (reserve_all_except_first_8kb m z st mem).2.1.s_explicit_bounds_set
      = st.s_explicit_bounds_set
  ∧ (set_ram_bounds b s st).s_ram_base = b % W
  ∧ (set_ram_bounds b s st).s_ram_size = s % W := by
  rcases reserve_state_cases m z st mem with hc | ⟨hc, _⟩ <;> rw [hc] <;>
    exact ⟨rfl, rfl, rfl, rfl, rfl⟩

/-- Claim C1: precedence of RAM-bounds sources.  After `set_ram_bounds` the
reservation result is independent of the `__ram_end` marker (it is ignored even
when present and larger), and the effective bounds are exactly the configured
ones; on a reachable state without explicit bounds, the marker is consulted
first and, failing that, the compile-time defaults are used. -/
theorem bounds_precedence (b s : Nat) (st st0 : NegotiatorState)
    (m : Option Nat) (z : Bool) (mem : Mem)
    (h0 : Reachable st0) (hne : st0.s_explicit_bounds_set = false) :
    (reserve_all_except_first_8kb m z (set_ram_bounds b s st) mem =
        reserve_all_except_first_8kb none z (set_ram_bounds b s st) mem)
  ∧ effective_bounds m (set_ram_bounds b s st) = (b % W, s % W)
  ∧ effective_bounds m st0 =
      (if compute_ram_end_from_linker m ≠ 0 ∧
          DEFAULT_RAM_BASE < compute_ram_end_from_linker m then
        (DEFAULT_RAM_BASE, compute_ram_end_from_linker m - DEFAULT_RAM_BASE)
      else
        (DEFAULT_RAM_BASE, DEFAULT_RAM_SIZE)) := by
  obtain ⟨hb, hs⟩ := bounds_default_of_not_explicit st0 h0 hne
  refine ⟨reserve_marker_irrelevant_of_explicit m none z _ mem rfl, ?_, ?_⟩
  · rw [effective_bounds_explicit m _ rfl]
    rfl
  · rw [effective_bounds_not_explicit m st0 hne, hb, hs]

/-- Witness for `bounds_precedence`: explicit bounds `(0x1000, 0x5000)`
against a present, much larger marker `0x7F000000`. -/
theorem bounds_precedence_witness :
    (reserve_all_except_first_8kb (some 0x7F000000) false
        (set_ram_bounds 0x1000 0x5000 initState) (fun _ => 0) =
      reserve_all_except_first_8kb none false
        (set_ram_bounds 0x1000 0x5000 initState) (fun _ => 0))
  ∧ effective_bounds (some 0x7F000000) (set_ram_bounds 0x1000 0x5000 initState)
      = (0x1000 % W, 0x5000 % W)
  ∧ effective_bounds (some 0x7F000000) initState =
      (if compute_ram_end_from_linker (some 0x7F000000) ≠ 0 ∧
          DEFAULT_RAM_BASE < compute_ram_end_from_linker (some 0x7F000000) then
        (DEFAULT_RAM_BASE,
         compute_ram_end_from_linker (some 0x7F000000) - DEFAULT_RAM_BASE)
      else
        (DEFAULT_RAM_BASE, DEFAULT_RAM_SIZE)) :=
  bounds_precedence 0x1000 0x5000 initState initState (some 0x7F000000) false
    (fun _ => 0) Reachable.init rfl

/-- Claim C3: commit-or-nothing failure atomicity.  Whenever
`reserve_all_except_first_8kb` returns `false`, the whole state (committed
region, reserved flag, bounds) and the memory are exactly what they were before
the call, and a subsequent `set_ram_bounds` with the compile-time defaults
followed by another reserve call succeeds — failure is retryable. -/
theorem reserve_failure_atomic (m m' : Option Nat) (z z' : Bool)
    (st : NegotiatorState) (mem mem' : Mem)
    (h : (reserve_all_except_first_8kb m z st mem).1 = false) :
    reserve_all_except_first_8kb m z st mem = (false, st, mem)
  ∧ (reserve_all_except_first_8kb m' z'
      (set_ram_bounds DEFAULT_RAM_BASE DEFAULT_RAM_SIZE st) mem').1 = true := by
  refine ⟨reserve_fail_eq m z st mem h, ?_⟩
  have hr : st.s_reserved = false := by
    by_contra hx
    rw [reserve_of_reserved m z st mem (by simpa using hx)] at h
    simp at h
  have hr2 : (set_ram_bounds DEFAULT_RAM_BASE DEFAULT_RAM_SIZE st).s_reserved
      = false := hr
  rw [reserve_fresh_eq m' z' _ mem' hr2]
  have heb : effective_bounds m'
      (set_ram_bounds DEFAULT_RAM_BASE DEFAULT_RAM_SIZE st)
      = (DEFAULT_RAM_BASE, DEFAULT_RAM_SIZE) := by
    rw [effective_bounds_explicit m' _ rfl]
    simp only [set_ram_bounds]
    rw [Nat.mod_eq_of_lt (by rw [W_eq, DEFAULT_RAM_BASE_eq]; omega),
      Nat.mod_eq_of_lt (by rw [W_eq, DEFAULT_RAM_SIZE_eq]; omega)]
  have h1 : ¬ ((effective_bounds m'
      (set_ram_bounds DEFAULT_RAM_BASE DEFAULT_RAM_SIZE st)).2 ≤ RESERVED_PREFIX) := by
    rw [heb]
    decide
  have h2 : ¬ (candidate_stop m' (set_ram_bounds DEFAULT_RAM_BASE DEFAULT_RAM_SIZE st)
      ≤ candidate_start m' (set_ram_bounds DEFAULT_RAM_BASE DEFAULT_RAM_SIZE st)) := by
    unfold candidate_stop candidate_start
    rw [heb]
    decide
  rw [if_neg h1, if_neg h2]

/-- Witness for `reserve_failure_atomic`: failing call with explicitly
configured zero-sized RAM, retried with the default bounds. -/
theorem reserve_failure_atomic_witness :
    reserve_all_except_first_8kb none true
        (set_ram_bounds 0x2000 0 initState) (fun _ => 5)
      = (false, set_ram_bounds 0x2000 0 initState, fun _ => 5)
  ∧ (reserve_all_except_first_8kb none false
      (set_ram_bounds DEFAULT_RAM_BASE DEFAULT_RAM_SIZE
        (set_ram_bounds 0x2000 0 initState)) (fun _ => 0)).1 = true :=
  reserve_failure_atomic none none true false
    (set_ram_bounds 0x2000 0 initState) (fun _ => 5) (fun _ => 0) (by decide)

/-- Claim C5: marker fallback.  On a reachable state with no explicit bounds,
an absent marker, a marker resolving to address zero, and a marker not strictly
greater than the compile-time base all yield the compile-time default base and
size; a marker strictly greater than the base keeps the default base and
derives the size as `marker_address - base`. -/
theorem marker_fallback (st : NegotiatorState) (a : Nat)
    (h0 : Reachable st) (hne : st.s_explicit_bounds_set = false) :
    effective_bounds none st = (DEFAULT_RAM_BASE, DEFAULT_RAM_SIZE)
  ∧ effective_bounds (some 0) st = (DEFAULT_RAM_BASE, DEFAULT_RAM_SIZE)
  ∧ (a % W ≤ DEFAULT_RAM_BASE →
      effective_bounds (some a) st = (DEFAULT_RAM_BASE, DEFAULT_RAM_SIZE))
  ∧ (DEFAULT_RAM_BASE < a % W →
      effective_bounds (some a) st
        = (DEFAULT_RAM_BASE, a % W - DEFAULT_RAM_BASE)) := by
  obtain ⟨hb, hs⟩ := bounds_default_of_not_explicit st h0 hne
  refine ⟨?_, ?_, ?_, ?_⟩
  · rw [effective_bounds_not_explicit none st hne, hb, hs]
    simp [compute_ram_end_from_linker]
  · rw [effective_bounds_not_explicit (some 0) st hne, hb, hs]
    simp [compute_ram_end_from_linker, W_eq]
  · intro ha
    rw [effective_bounds_not_explicit (some a) st hne, hb, hs]
    have : ¬ (compute_ram_end_from_linker (some a) ≠ 0 ∧
        DEFAULT_RAM_BASE < compute_ram_end_from_linker (some a)) := by
      simp only [compute_ram_end_from_linker]
      split
      · simp
      · intro hc
        omega
    rw [if_neg this]
  · intro ha
    rw [effective_bounds_not_explicit (some a) st hne, hb, hs]
    have hnz : a % W ≠ 0 := by
      rw [DEFAULT_RAM_BASE_eq] at ha
      omega
    have hce : compute_ram_end_from_linker (some a) = a % W := by
      simp only [compute_ram_end_from_linker]
      rw [if_neg hnz]
    rw [if_pos (by rw [hce]; exact ⟨hnz, ha⟩), hce]

/-- Witness for `marker_fallback` on the initial state with marker address
`0x40000000` (strictly above the default base). -/
theorem marker_fallback_witness :
    effective_bounds none initState = (DEFAULT_RAM_BASE, DEFAULT_RAM_SIZE)
  ∧ effective_bounds (some 0) initState = (DEFAULT_RAM_BASE, DEFAULT_RAM_SIZE)
  ∧ (0x40000000 % W ≤ DEFAULT_RAM_BASE →
      effective_bounds (some 0x40000000) initState
        = (DEFAULT_RAM_BASE, DEFAULT_RAM_SIZE))
  ∧ (DEFAULT_RAM_BASE < 0x40000000 % W →
      effective_bounds (some 0x40000000) initState
        = (DEFAULT_RAM_BASE, 0x40000000 % W - DEFAULT_RAM_BASE)) :=
  marker_fallback initState 0x40000000 Reachable.init rfl

/-- Claim C7: zeroing postcondition and frame.  For every fresh call
`reserve_all_except_first_8kb` with `zero_memory = true` that returns `true`
and commits the region `[start, stop)`, every 4-byte word at
`start, start+4, …, stop-4` reads as zero in the resulting memory, and every
address outside `[start, stop)` is unchanged. -/
theorem reserve_zeroing (m : Option Nat) (st : NegotiatorState) (mem : Mem)
    (hres : st.s_reserved = false)
    (h : (reserve_all_except_first_8kb m true st mem).1 = true) :
    (∀ a,
      (reserve_all_except_first_8kb m true st mem).2.1.s_reserved_region.start ≤ a →
      a < (reserve_all_except_first_8kb m true st mem).2.1.s_reserved_region.stop →
      (a - (reserve_all_except_first_8kb m true st mem).2.1.s_reserved_region.start) % 4 = 0 →
      (reserve_all_except_first_8kb m true st mem).2.2 a = 0)
  ∧ (∀ a,
      a < (reserve_all_except_first_8kb m true st mem).2.1.s_reserved_region.start ∨
      (reserve_all_except_first_8kb m true st mem).2.1.s_reserved_region.stop ≤ a →
      (reserve_all_except_first_8kb m true st mem).2.2 a = mem a) := by
  obtain ⟨hsz, hlt, hreg, hmem⟩ := reserve_fresh_success m true st mem hres h
  rw [hreg, hmem]
  simp only [if_true]
  constructor
  · intro a h1 h2 h3
    rw [zero_words_apply, if_pos ⟨h1, h2, h3⟩]
  · intro a ha
    rcases ha with ha | ha <;>
      rw [zero_words_apply, if_neg (by omega)]

/-- Witness for `reserve_zeroing`: the spec's worked example
`base = 0x1000`, `size = 8192 + 16`, zeroing requested. -/
theorem reserve_zeroing_witness :
    (∀ a,
      (reserve_all_except_first_8kb none true
        (set_ram_bounds 0x1000 (8192 + 16) initState) (fun _ => 7)).2.1.s_reserved_region.start ≤ a →
      a < (reserve_all_except_first_8kb none true
        (set_ram_bounds 0x1000 (8192 + 16) initState) (fun _ => 7)).2.1.s_reserved_region.stop →
      (a - (reserve_all_except_first_8kb none true
        (set_ram_bounds 0x1000 (8192 + 16) initState) (fun _ => 7)).2.1.s_reserved_region.start) % 4 = 0 →
      (reserve_all_except_first_8kb none true
        (set_ram_bounds 0x1000 (8192 + 16) initState) (fun _ => 7)).2.2 a = 0)
  ∧ (∀ a,
      a < (reserve_all_except_first_8kb none true
        (set_ram_bounds 0x1000 (8192 + 16) initState) (fun _ => 7)).2.1.s_reserved_region.start ∨
      (reserve_all_except_first_8kb none true
        (set_ram_bounds 0x1000 (8192 + 16) initState) (fun _ => 7)).2.1.s_reserved_region.stop ≤ a →
      (reserve_all_except_first_8kb none true
        (set_ram_bounds 0x1000 (8192 + 16) initState) (fun _ => 7)).2.2 a = (fun _ => 7) a) :=
  reserve_zeroing none (set_ram_bounds 0x1000 (8192 + 16) initState)
    (fun _ => 7) rfl (by decide)

/-- Counterexample to claim C6 as stated: with explicitly configured bounds
`base = 0xFFFFE000`, `size = 0x2010` the reservation succeeds — the
`uintptr_t` computation wraps modulo `2^32` and commits the region `[0, 16)` —
yet the committed region is not contained in
`[base + RESERVED_PREFIX, base + size)` in exact (unbounded) integer
arithmetic. -/
theorem reserve_subinterval_counterexample :
    (reserve_all_except_first_8kb none false
        (set_ram_bounds 0xFFFFE000 0x2010 initState) (fun _ => 0)).1 = true
  ∧ (effective_bounds none (set_ram_bounds 0xFFFFE000 0x2010 initState)).1
      = 0xFFFFE000
  ∧ (effective_bounds none (set_ram_bounds 0xFFFFE000 0x2010 initState)).2
      = 0x2010
  ∧ ¬ (0xFFFFE000 + RESERVED_PREFIX ≤
        (reserve_all_except_first_8kb none false
          (set_ram_bounds 0xFFFFE000 0x2010 initState)
          (fun _ => 0)).2.1.s_reserved_region.start) := by
  decide

/-- Claim C6 (amended): sub-interval containment.  For every effective base
and size with which a fresh `reserve_all_except_first_8kb` succeeds, provided
the machine arithmetic does not wrap modulo `2^32`
(`base + size ≤ 2^32` and `base + RESERVED_PREFIX + 4 ≤ 2^32`), the committed
region `[start, stop)` satisfies `base + RESERVED_PREFIX ≤ start` and
`stop ≤ base + size` in exact integer arithmetic. -/
theorem reserve_subinterval (m : Option Nat) (z : Bool) (st : NegotiatorState)
    (mem : Mem) (hres : st.s_reserved = false)
    (hW1 : (effective_bounds m st).1 + (effective_bounds m st).2 ≤ W)
    (hW2 : (effective_bounds m st).1 + RESERVED_PREFIX + 4 ≤ W)
    (h : (reserve_all_except_first_8kb m z st mem).1 = true) :
    (effective_bounds m st).1 + RESERVED_PREFIX ≤
      (reserve_all_except_first_8kb m z st mem).2.1.s_reserved_region.start
  ∧ (reserve_all_except_first_8kb m z st mem).2.1.s_reserved_region.stop ≤
      (effective_bounds m st).1 + (effective_bounds m st).2 := by
  obtain ⟨hsz, hlt, hreg, _⟩ := reserve_fresh_success m z st mem hres h
  rw [hreg]
  dsimp only
  constructor
  · unfold candidate_start
    rw [Nat.mod_eq_of_lt (by omega)]
    exact align_up4_ge _ (by omega)
  · have hne : (effective_bounds m st).1 + (effective_bounds m st).2 ≠ W := by
      intro hEq
      unfold candidate_stop at hlt
      rw [hEq, Nat.mod_self, align_down4_of_aligned 0 (by norm_num)] at hlt
      omega
    unfold candidate_stop
    rw [Nat.mod_eq_of_lt (by omega)]
    exact align_down4_le _

/-- Witness for `reserve_subinterval`: explicit bounds `(0x1000, 0x5000)`,
well inside the 32-bit range. -/
theorem reserve_subinterval_witness :
    (effective_bounds none (set_ram_bounds 0x1000 0x5000 initState)).1 + RESERVED_PREFIX ≤
      (reserve_all_except_first_8kb none false
        (set_ram_bounds 0x1000 0x5000 initState) (fun _ => 0)).2.1.s_reserved_region.start
  ∧ (reserve_all_except_first_8kb none false
      (set_ram_bounds 0x1000 0x5000 initState) (fun _ => 0)).2.1.s_reserved_region.stop ≤
      (effective_bounds none (set_ram_bounds 0x1000 0x5000 initState)).1 +
        (effective_bounds none (set_ram_bounds 0x1000 0x5000 initState)).2 :=
  reserve_subinterval none false (set_ram_bounds 0x1000 0x5000 initState)
    (fun _ => 0) rfl (by decide) (by decide) (by decide)

/-- Counterexample to claim C9 as stated: the base `0xFFFFDFFC` is word-aligned
and explicitly configured with size ` RESERVED_PREFIX + 4`, yet the reservation
fails (returns `false`): `base + size` wraps to `0` modulo `2^32`, so the
interval collapses. -/
theorem reserve_boundary_counterexample :
    (0xFFFFDFFC : Nat) % 4 = 0
  ∧ (reserve_all_except_first_8kb none false
      (set_ram_bounds 0xFFFFDFFC ( RESERVED_PREFIX + 4) initState)
      (fun _ => 0)).1 = false := by
  decide

/-- Claim C9 (amended): insufficient-memory boundary.  With explicitly
configured word-aligned base `b` such that `b + RESERVED_PREFIX + 4 < 2^32`
(no wrap of the machine arithmetic), reservation fails for every size
`s ≤ RESERVED_PREFIX`, and with size ` RESERVED_PREFIX + 4` it succeeds and
commits exactly the 4-byte region
`[b + RESERVED_PREFIX, b + RESERVED_PREFIX + 4)`. -/
theorem reserve_boundary (b s : Nat) (m : Option Nat) (z : Bool)
    (st : NegotiatorState) (mem : Mem)
    (hres : st.s_reserved = false) (hb4 : b % 4 = 0)
    (hnw : b + RESERVED_PREFIX + 4 < W) (hs : s ≤ RESERVED_PREFIX) :
    (reserve_all_except_first_8kb m z (set_ram_bounds b s st) mem).1 = false
  ∧ (reserve_all_except_first_8kb m z
      (set_ram_bounds b ( RESERVED_PREFIX + 4) st) mem).1 = true
  ∧ (reserve_all_except_first_8kb m z
      (set_ram_bounds b ( RESERVED_PREFIX + 4) st) mem).2.1.s_reserved_region
      = ⟨b + RESERVED_PREFIX, b + RESERVED_PREFIX + 4⟩ := by
  have hWn : W = 4294967296 := W_eq
  have hPn : RESERVED_PREFIX = 8192 := rfl
  have hbW : b < W := by omega
  have hs1 : (set_ram_bounds b s st).s_reserved = false := hres
  have hs2 : (set_ram_bounds b ( RESERVED_PREFIX + 4) st).s_reserved = false :=
    hres
  have heb2 : effective_bounds m (set_ram_bounds b ( RESERVED_PREFIX + 4) st)
      = (b, RESERVED_PREFIX + 4) := by
    rw [effective_bounds_explicit m _ rfl]
    simp only [set_ram_bounds]
    rw [Nat.mod_eq_of_lt hbW, Nat.mod_eq_of_lt (by omega)]
  have hcs : candidate_start m (set_ram_bounds b ( RESERVED_PREFIX + 4) st)
      = b + RESERVED_PREFIX := by
    unfold candidate_start
    rw [heb2]
    show align_up4 ((b + RESERVED_PREFIX) % W) = b + RESERVED_PREFIX
    rw [Nat.mod_eq_of_lt (by omega)]
    exact align_up4_of_aligned _ (by omega)
  have hce : candidate_stop m (set_ram_bounds b ( RESERVED_PREFIX + 4) st)
      = b + RESERVED_PREFIX + 4 := by
    unfold candidate_stop
    rw [heb2]
    show align_down4 ((b + ( RESERVED_PREFIX + 4)) % W) = b + RESERVED_PREFIX + 4
    rw [Nat.mod_eq_of_lt (by omega)]
    have hadd : b + ( RESERVED_PREFIX + 4) = b + RESERVED_PREFIX + 4 := by omega
    rw [hadd]
    exact align_down4_of_aligned _ (by omega)
  have hn1 : ¬ ((effective_bounds m
      (set_ram_bounds b ( RESERVED_PREFIX + 4) st)).2 ≤ RESERVED_PREFIX) := by
    rw [heb2]
    show ¬ ( RESERVED_PREFIX + 4 ≤ RESERVED_PREFIX)
    omega
  have hn2 : ¬ (candidate_stop m (set_ram_bounds b ( RESERVED_PREFIX + 4) st)
      ≤ candidate_start m (set_ram_bounds b ( RESERVED_PREFIX + 4) st)) := by
    rw [hcs, hce]
    omega
  have hrun := reserve_fresh_eq m z (set_ram_bounds b ( RESERVED_PREFIX + 4) st)
    mem hs2
  rw [if_neg hn1, if_neg hn2] at hrun
  refine ⟨?_, ?_, ?_⟩
  · rw [reserve_fresh_eq m z _ mem hs1]
    have hcond : (effective_bounds m (set_ram_bounds b s st)).2
        ≤ RESERVED_PREFIX := by
      rw [effective_bounds_explicit m _ rfl]
      show s % W ≤ RESERVED_PREFIX
      have hsW : s % W = s := Nat.mod_eq_of_lt (by omega)
      omega
    rw [if_pos hcond]
  · rw [hrun]
  · rw [hrun, hcs, hce]

/-- Witness for `reserve_boundary` at the default base with `s = 100`. -/
theorem reserve_boundary_witness :
    (reserve_all_except_first_8kb none false
      (set_ram_bounds 0x3F800000 100 initState) (fun _ => 0)).1 = false
  ∧ (reserve_all_except_first_8kb none false
      (set_ram_bounds 0x3F800000 ( RESERVED_PREFIX + 4) initState)
      (fun _ => 0)).1 = true
  ∧ (reserve_all_except_first_8kb none false
      (set_ram_bounds 0x3F800000 ( RESERVED_PREFIX + 4) initState)
      (fun _ => 0)).2.1.s_reserved_region
      = ⟨0x3F800000 + RESERVED_PREFIX, 0x3F800000 + RESERVED_PREFIX + 4⟩ :=
  reserve_boundary 0x3F800000 100 none false initState (fun _ => 0)
    rfl (by decide) (by decide) (by decide)

end MemoryManager
